import Mathlib

/-!
Formal model of the news-terminal aggregation core.

Strings are modelled as `List Char`; Python `datetime` instants and
`time.time()` readings are modelled as integers counting milliseconds (an
order-isomorphic rescaling under which every configured interval is
integral), `datetime` values used only for ordering as integers.  Python dictionaries are
modelled as maps `Key → Option _`, and each mutating method is embedded in
state-passing style (`State → result × State`).
-/

namespace NewsTerminal

/-- Model of Python `str.lower()` (ASCII case fold, which covers every title,
keyword and source name involved). -/
def pyLower (s : List Char) : List Char := s.map Char.toLower

/-- Model of Python `str.strip()`: drop leading and trailing whitespace. -/
def pyStrip (s : List Char) : List Char :=
  ((s.dropWhile Char.isWhitespace).reverse.dropWhile Char.isWhitespace).reverse

/-- `data.api.NewsArticle`: immutable news article record.  `published_at`
is an integer timestamp (Python `datetime` is only compared, never read). -/
structure Article where
  title : List Char
  description : List Char
  url : List Char
  source : List Char
  published_at : Int
  category : List Char
deriving DecidableEq, Repr

/-- The normalized dedup key `article.title.lower().strip()` used by both
deduplication routines. -/
def titleKey (a : Article) : List Char := pyStrip (pyLower a.title)

/-- `RealTimeNewsAggregator._breaking_news_keywords`. -/
def breaking_news_keywords : List (List Char) :=
  ["breaking".data, "urgent".data, "alert".data, "flash".data, "developing".data,
   "halt".data, "suspend".data, "emergency".data, "crash".data, "surge".data]

/-- `RealTimeNewsAggregator._priority_sources`. -/
def priority_sources : List (List Char) :=
  ["Bloomberg".data, "Reuters".data, "Financial Times".data, "MarketWatch".data,
   "Yahoo Finance".data, "CNBC".data, "Wall Street Journal".data]

/-- `RealTimeNewsAggregator._is_breaking_news`: any keyword occurs in the
lower-cased title or description. -/
def is_breaking_news (a : Article) : Bool :=
  breaking_news_keywords.any fun k =>
    decide (k <:+: pyLower a.title) || decide (k <:+: pyLower a.description)

/-- `RealTimeNewsAggregator._is_priority_source`: some priority source name,
lower-cased, occurs in the lower-cased article source. -/
def is_priority_source (a : Article) : Bool :=
  priority_sources.any fun s => decide (pyLower s <:+: pyLower a.source)

/-- Tier ordinal of an article under `_deduplicate_and_prioritize`:
0 = breaking, 1 = priority source, 2 = regular (the `if`/`elif`/`else`). -/
def tier (a : Article) : Nat :=
  if is_breaking_news a then 0 else if is_priority_source a then 1 else 2

/-- `DEFAULT_CONFIG.terminal.max_articles_display`. -/
def max_articles_display : Nat := 150

/-- The dedup scan inside `_deduplicate_and_prioritize`: an article is
skipped when its key was already seen or is shorter than 10 characters;
a kept article records its key in `seen_titles`. -/
def dedupScanRT : List Article → List (List Char) → List Article
  | [], _ => []
  | a :: rest, seen =>
    if titleKey a ∈ seen ∨ (titleKey a).length < 10 then dedupScanRT rest seen
    else a :: dedupScanRT rest (titleKey a :: seen)

/-- Descending-recency order used by `x.sort(key=lambda x: x.published_at,
reverse=True)`. -/
def pubDesc (x y : Article) : Prop := y.published_at ≤ x.published_at

instance : DecidableRel pubDesc := fun x y =>
  inferInstanceAs (Decidable (y.published_at ≤ x.published_at))

instance : IsTotal Article pubDesc :=
  ⟨fun x y => le_total y.published_at x.published_at⟩

instance : IsTrans Article pubDesc :=
  ⟨fun _ _ _ h1 h2 => le_trans h2 h1⟩

/-- `RealTimeNewsAggregator._deduplicate_and_prioritize`.  The single pass
that deduplicates and buckets by `if`/`elif`/`else` is expressed as the
dedup scan followed by filters (appending to a bucket in scan order is the
filter of the scan's output); Python's stable `list.sort(reverse=True)` is
`List.insertionSort pubDesc`, the stable sort of the same total preorder. -/
def deduplicate_and_prioritize (articles : List Article) : List Article :=
  let unique := dedupScanRT articles []
  let breaking_news := unique.filter fun a => is_breaking_news a
  let rest := unique.filter fun a => !is_breaking_news a
  let priority_news := rest.filter fun a => is_priority_source a
  let regular_news := rest.filter fun a => !is_priority_source a
  (List.insertionSort pubDesc breaking_news ++
   List.insertionSort pubDesc priority_news ++
   List.insertionSort pubDesc regular_news).take max_articles_display

/-- `NewsAggregator._deduplicate_articles`: an article is kept when its key
is unseen and strictly longer than 10 characters. -/
def deduplicate_articles : List Article → List (List Char) → List Article
  | [], _ => []
  | a :: rest, seen =>
    if titleKey a ∉ seen ∧ (titleKey a).length > 10 then
      a :: deduplicate_articles rest (titleKey a :: seen)
    else deduplicate_articles rest seen

/-- Cache keys (Python `str`, derived deterministically from the sorted
category list; the derivation is irrelevant to every cache property, so the
operations are modelled per key). -/
abbrev Key := String

/-- Outcome of one concurrent source task: either its article list, or the
exception it raised (timeouts included). -/
abbrev TaskResult := Except Unit (List Article)

/-- The per-task result processing shared by `fetch_news_concurrent` (the
`try ... extend ... except ... continue` body of the `as_completed` loop,
applied to the futures that completed within the overall deadline, in
completion order) and `fetch_real_time_news` (`gather(...,
return_exceptions=True)` followed by `if isinstance(result, list): extend
else log`, which is exhaustive): successful results are concatenated in
completion order, results that raised contribute nothing.  The
`as_completed` iterator's own `TimeoutError` — raised, uncaught, when some
future is still pending at the overall deadline — is modelled in
`fetch_news_concurrent_with_deadline`. -/
def collectResults : List TaskResult → List Article
  | [] => []
  | Except.ok arts :: rest => arts ++ collectResults rest
  | Except.error _ :: rest => collectResults rest

/-- `FeedFetcher.fetch_source`: the whole body is wrapped in
`try ... except: return []`, so a raising source maps to `[]`. -/
def fetch_source (r : TaskResult) : List Article :=
  match r with
  | Except.ok arts => arts
  | Except.error _ => []

/-! ### `RealTimeCache` (`realtime_aggregator.py`) -/

/-- State of `RealTimeCache`: `_cache` maps a key to `(articles, datetime
timestamp)`, `_last_fetch_times` maps a key to a `time.time()` reading.
Instants are integers (milliseconds). -/
structure RealTimeCache where
  cache : Key → Option (List Article × ℤ)
  last_fetch_times : Key → Option ℤ
  cache_duration : ℤ

/-- `RealTimeCache.min_fetch_interval = 0.5` seconds = 500 ms. -/
def RealTimeCache.min_fetch_interval : ℤ := 500

/-- `RealTimeCache.__init__(cache_duration_seconds)` with empty dicts
(the stored duration in ms). -/
def RealTimeCache.init (cache_duration_seconds : ℤ) : RealTimeCache :=
  { cache := fun _ => none
    last_fetch_times := fun _ => none
    cache_duration := 1000 * cache_duration_seconds }

/-- `RealTimeCache.should_fetch`: `self._last_fetch_times.get(key, 0)`
defaults to `0`, and the test is `time.time() - last_fetch >=
self.min_fetch_interval`.  The method only reads, so it returns the state
unchanged. -/
def RealTimeCache.should_fetch (s : RealTimeCache) (key : Key) (now : ℤ) :
    Bool × RealTimeCache :=
  (decide (now - ((s.last_fetch_times key).getD 0) ≥ RealTimeCache.min_fetch_interval), s)

/-- `RealTimeCache.get`: returns the stored articles only when the entry
exists and `datetime.now() - timestamp < self.cache_duration`; otherwise
`None`.  The method only reads. -/
def RealTimeCache.get (s : RealTimeCache) (key : Key) (now : ℤ) :
    Option (List Article) × RealTimeCache :=
  (match s.cache key with
   | some (articles, timestamp) =>
     if now - timestamp < s.cache_duration then some articles else none
   | none => none, s)

/-- `RealTimeCache.set`: stores `(articles, datetime.now())` and records
`time.time()` in `_last_fetch_times`, both under `key`. -/
def RealTimeCache.set (s : RealTimeCache) (key : Key) (articles : List Article)
    (now : ℤ) : RealTimeCache :=
  { s with
    cache := Function.update s.cache key (some (articles, now))
    last_fetch_times := Function.update s.last_fetch_times key (some now) }

/-- `RealTimeCache.clear`: empties both dictionaries. -/
def RealTimeCache.clear (s : RealTimeCache) : RealTimeCache :=
  { s with cache := fun _ => none, last_fetch_times := fun _ => none }

/-- `RealTimeNewsAggregator.fetch_real_time_news`, per key: when
`should_fetch` is false and `get` yields a truthy (non-`None`, non-empty)
list, the cached articles are returned without touching upstream; otherwise
the task results are collected, deduplicated/prioritized, cached under the
key, and returned.  The second component records whether an upstream fetch
round was performed. -/
def fetch_real_time_news (s : RealTimeCache) (key : Key) (now : ℤ)
    (results : List TaskResult) : List Article × Bool × RealTimeCache :=
  if (s.should_fetch key now).1 = false ∧ ((s.get key now).1.getD []) ≠ [] then
    (((s.get key now).1.getD []), false, s)
  else
    let all_articles := collectResults results
    let unique_articles := deduplicate_and_prioritize all_articles
    (unique_articles, true, s.set key unique_articles now)

/-! ### `NewsCache` (`aggregator.py`) -/

/-- State of `NewsCache`: `_cache` maps a key to `(articles, datetime)`,
`_last_api_call` maps a key to a `datetime`. -/
structure NewsCache where
  cache : Key → Option (List Article × ℤ)
  last_api_call : Key → Option ℤ
  cache_duration : ℤ

/-- `NewsCache.min_call_interval = timedelta(seconds=10)` = 10000 ms. -/
def NewsCache.min_call_interval : ℤ := 10000

/-- `NewsCache.__init__(cache_duration_minutes)`: the duration is
`timedelta(minutes=m)`, i.e. `60000 * m` ms. -/
def NewsCache.init (cache_duration_minutes : ℤ) : NewsCache :=
  { cache := fun _ => none
    last_api_call := fun _ => none
    cache_duration := 60000 * cache_duration_minutes }

/-- `NewsCache.should_fetch`: true when the key was never fetched, else
`datetime.now() - last > self.min_call_interval` (strict).  Read-only. -/
def NewsCache.should_fetch (s : NewsCache) (key : Key) (now : ℤ) :
    Bool × NewsCache :=
  (match s.last_api_call key with
   | none => true
   | some last => decide (now - last > NewsCache.min_call_interval), s)

/-- `NewsCache.get`: the stored articles when the entry exists and is within
`cache_duration`, else `[]`.  Read-only. -/
def NewsCache.get (s : NewsCache) (key : Key) (now : ℤ) :
    List Article × NewsCache :=
  (match s.cache key with
   | some (articles, timestamp) =>
     if now - timestamp < s.cache_duration then articles else []
   | none => [], s)

/-- `NewsCache.set`: stores the articles and updates `_last_api_call`. -/
def NewsCache.set (s : NewsCache) (key : Key) (articles : List Article)
    (now : ℤ) : NewsCache :=
  { s with
    cache := Function.update s.cache key (some (articles, now))
    last_api_call := Function.update s.last_api_call key (some now) }

/-- `NewsCache.clear`: empties both dictionaries. -/
def NewsCache.clear (s : NewsCache) : NewsCache :=
  { s with cache := fun _ => none, last_api_call := fun _ => none }

/-- `NewsAggregator.fetch_news_concurrent`, per key, on a cycle in which
every submitted future completes within the overall `as_completed`
deadline: cached data is served when `get` is truthy and `should_fetch` is
false, and again whenever `get` is truthy (the "cache fresh enough"
branch); otherwise the concurrent task results are collected, deduplicated,
sorted by recency, truncated, cached and returned.  The middle component
records whether upstream was hit.  The deadline-exceeded path of the same
function is `fetch_news_concurrent_with_deadline`. -/
def fetch_news_concurrent (s : NewsCache) (key : Key) (now : ℤ)
    (results : List TaskResult) : List Article × Bool × NewsCache :=
  let cached_articles := (s.get key now).1
  if cached_articles ≠ [] ∧ (s.should_fetch key now).1 = false then
    (cached_articles, false, s)
  else if cached_articles ≠ [] then
    (cached_articles, false, s)
  else
    let all_articles := collectResults results
    let unique_articles :=
      List.insertionSort pubDesc (deduplicate_articles all_articles [])
    let final_articles := unique_articles.take max_articles_display
    (final_articles, true, s.set key final_articles now)

/-- `NewsAggregator.fetch_news_concurrent`, per key, with the collection
phase's overall deadline included.  `completed` are the outcomes of the
futures that finished within `as_completed(futures, timeout=...)`'s
deadline, in completion order; `numPending` counts the futures still
running when that deadline elapses.  When `numPending ≠ 0` the
`as_completed` iterator raises `concurrent.futures.TimeoutError` at the
`for` statement — outside the loop body's `try`/`except` — so the
exception propagates to the caller (`Except.error`) and the accumulated
successes are discarded; otherwise the function behaves as
`fetch_news_concurrent`. -/
def fetch_news_concurrent_with_deadline (s : NewsCache) (key : Key)
    (now : ℤ) (completed : List TaskResult) (numPending : Nat) :
    Except Unit (List Article × Bool × NewsCache) :=
  let cached_articles := (s.get key now).1
  if cached_articles ≠ [] ∧ (s.should_fetch key now).1 = false then
    Except.ok (cached_articles, false, s)
  else if cached_articles ≠ [] then
    Except.ok (cached_articles, false, s)
  else if numPending ≠ 0 then
    Except.error ()
  else
    let all_articles := collectResults completed
    let unique_articles :=
      List.insertionSort pubDesc (deduplicate_articles all_articles [])
    let final_articles := unique_articles.take max_articles_display
    Except.ok (final_articles, true, s.set key final_articles now)

/-! ### Live display content-change check (`display.py`) -/

/-- The content-change test of `NewsDisplay.display_news_live` on a fetch
cycle: changed when the previous list is empty (falsy) or the lengths
differ; otherwise changed exactly when the title sets differ (Python `set`
equality, i.e. mutual membership of titles). -/
def content_changed (current_articles new_articles : List Article) : Bool :=
  if current_articles = [] ∨ new_articles.length ≠ current_articles.length then
    true
  else
    !((new_articles.map Article.title).all
        (fun t => decide (t ∈ current_articles.map Article.title)) &&
      (current_articles.map Article.title).all
        (fun t => decide (t ∈ new_articles.map Article.title)))

/-! ### Adapter title handling (`data/api.py`, `data/rss.py`) -/

/-- The `'[Removed]'` sentinel. -/
def removedSentinel : List Char := "[Removed]".data

/-- The `'No title'` fallback. -/
def noTitleFallback : List Char := "No title".data

/-- A raw payload entry's title field: absent/`None`, or a string. -/
abbrev RawTitle := Option (List Char)

/-- The filter of `NewsAPIClient.fetch_news`'s comprehension:
`article.get('title') and article.get('title') != '[Removed]'` (a missing,
`None` or empty title is falsy). -/
def newsapi_title_ok (t : RawTitle) : Bool :=
  match t with
  | none => false
  | some s => !s.isEmpty && decide (s ≠ removedSentinel)

/-- Titles of the articles `NewsAPIClient.fetch_news` builds from a raw
payload: entries passing the filter, with `article['title'] or 'No title'`
as title. -/
def newsapi_fetch_titles (raw : List RawTitle) : List (List Char) :=
  (raw.filter newsapi_title_ok).map fun t =>
    match t with
    | some s => if s.isEmpty then noTitleFallback else s
    | none => noTitleFallback

/-- Titles of the articles `RSSFeedManager.fetch_from_feed` builds: every
entry yields an article with `entry.get('title', 'No title')`, with no
further filtering. -/
def rss_fetch_titles (entries : List RawTitle) : List (List Char) :=
  entries.map fun t => t.getD noTitleFallback

/-- Title built by `FeedFetcher._parse_entry`:
`entry.get('title', 'No title').strip()`, again with no rejection. -/
def parse_entry_title (t : RawTitle) : List Char :=
  pyStrip (t.getD noTitleFallback)

/-! ### Concrete articles used in scenarios and witnesses -/

/-- A regular-tier article: no breaking keyword, not a priority source. -/
def fedArt : Article :=
  { title := "Fed cuts rates".data, description := [], url := [],
    source := "Example Wire".data, published_at := 100, category := "business".data }

/-- A breaking-tier article (keyword `halt`, prefix `BREAKING`), published
before `fedArt`. -/
def brkArt : Article :=
  { title := "BREAKING: market halt triggered".data, description := [], url := [],
    source := "Example Wire".data, published_at := 50, category := "business".data }

/-! ### Dedup-scan lemmas -/

/-- Every article surviving the real-time dedup scan has an unseen key of
length at least 10, and is the first article of the input with its key. -/
theorem dedupScanRT_spec (l : List Article) :
    ∀ (seen : List (List Char)) (a : Article), a ∈ dedupScanRT l seen →
      titleKey a ∉ seen ∧ 10 ≤ (titleKey a).length ∧
        l.find? (fun b => decide (titleKey b = titleKey a)) = some a := by
  induction l with
  | nil => intro seen a h; simp [dedupScanRT] at h
  | cons b rest ih =>
    intro seen a h
    by_cases hb : titleKey b ∈ seen ∨ (titleKey b).length < 10
    · rw [dedupScanRT, if_pos hb] at h
      obtain ⟨h1, h2, h3⟩ := ih seen a h
      refine ⟨h1, h2, ?_⟩
      rw [List.find?_cons_of_neg, h3]
      simp only [decide_eq_true_eq]
      intro hkey
      rcases hb with hb | hb
      · exact h1 (hkey ▸ hb)
      · have := congrArg List.length hkey
        omega
    · rw [dedupScanRT, if_neg hb] at h
      push_neg at hb
      rcases List.mem_cons.mp h with rfl | h
      · exact ⟨hb.1, by omega, List.find?_cons_of_pos _ (by simp)⟩
      · obtain ⟨h1, h2, h3⟩ := ih (titleKey b :: seen) a h
        have hne : titleKey b ≠ titleKey a := fun e =>
          h1 (List.mem_cons.mpr (Or.inl e.symm))
        refine ⟨fun hs => h1 (List.mem_cons_of_mem _ hs), h2, ?_⟩
        rw [List.find?_cons_of_neg, h3]
        simpa using hne

/-- Keys are pairwise distinct after the real-time dedup scan. -/
theorem dedupScanRT_pairwise (l : List Article) :
    ∀ seen, (dedupScanRT l seen).Pairwise fun a b => titleKey a ≠ titleKey b := by
  induction l with
  | nil => intro _; simp [dedupScanRT]
  | cons b rest ih =>
    intro seen
    by_cases hb : titleKey b ∈ seen ∨ (titleKey b).length < 10
    · rw [dedupScanRT, if_pos hb]; exact ih seen
    · rw [dedupScanRT, if_neg hb]
      refine List.Pairwise.cons (fun a ha => ?_) (ih _)
      have h1 := (dedupScanRT_spec rest _ a ha).1
      exact fun e => h1 (List.mem_cons.mpr (Or.inl e.symm))

/-- The real-time dedup scan output is a subsequence of its input. -/
theorem dedupScanRT_sublist (l : List Article) :
    ∀ seen, List.Sublist (dedupScanRT l seen) l := by
  induction l with
  | nil => intro _; simp [dedupScanRT]
  | cons b rest ih =>
    intro seen
    by_cases hb : titleKey b ∈ seen ∨ (titleKey b).length < 10
    · rw [dedupScanRT, if_pos hb]; exact (ih seen).cons b
    · rw [dedupScanRT, if_neg hb]; exact (ih _).cons₂ b

/-- Every article kept by `_deduplicate_articles` has an unseen key longer
than 10 characters, and is the first article of the input with its key. -/
theorem deduplicate_articles_spec (l : List Article) :
    ∀ (seen : List (List Char)) (a : Article), a ∈ deduplicate_articles l seen →
      titleKey a ∉ seen ∧ 10 < (titleKey a).length ∧
        l.find? (fun b => decide (titleKey b = titleKey a)) = some a := by
  induction l with
  | nil => intro seen a h; simp [deduplicate_articles] at h
  | cons b rest ih =>
    intro seen a h
    by_cases hb : titleKey b ∉ seen ∧ (titleKey b).length > 10
    · rw [deduplicate_articles, if_pos hb] at h
      rcases List.mem_cons.mp h with rfl | h
      · exact ⟨hb.1, hb.2, List.find?_cons_of_pos _ (by simp)⟩
      · obtain ⟨h1, h2, h3⟩ := ih (titleKey b :: seen) a h
        have hne : titleKey b ≠ titleKey a := fun e =>
          h1 (List.mem_cons.mpr (Or.inl e.symm))
        refine ⟨fun hs => h1 (List.mem_cons_of_mem _ hs), h2, ?_⟩
        rw [List.find?_cons_of_neg, h3]
        simpa using hne
    · rw [deduplicate_articles, if_neg hb] at h
      obtain ⟨h1, h2, h3⟩ := ih seen a h
      refine ⟨h1, h2, ?_⟩
      rw [List.find?_cons_of_neg, h3]
      simp only [decide_eq_true_eq]
      intro hkey
      rcases not_and_or.mp hb with hb | hb
      · exact absurd (hkey ▸ not_not.mp hb) h1
      · have := congrArg List.length hkey
        omega

/-- Keys are pairwise distinct after `_deduplicate_articles`. -/
theorem deduplicate_articles_pairwise (l : List Article) :
    ∀ seen, (deduplicate_articles l seen).Pairwise fun a b => titleKey a ≠ titleKey b := by
  induction l with
  | nil => intro _; simp [deduplicate_articles]
  | cons b rest ih =>
    intro seen
    by_cases hb : titleKey b ∉ seen ∧ (titleKey b).length > 10
    · rw [deduplicate_articles, if_pos hb]
      refine List.Pairwise.cons (fun a ha => ?_) (ih _)
      have h1 := (deduplicate_articles_spec rest _ a ha).1
      exact fun e => h1 (List.mem_cons.mpr (Or.inl e.symm))
    · rw [deduplicate_articles, if_neg hb]; exact ih seen

/-- The ranked real-time output is a permutation of the dedup scan's
output. -/
theorem dedup_prioritize_perm (articles : List Article) :
    List.Perm
      (List.insertionSort pubDesc
          ((dedupScanRT articles []).filter fun a => is_breaking_news a) ++
        List.insertionSort pubDesc
          (((dedupScanRT articles []).filter fun a => !is_breaking_news a).filter
            fun a => is_priority_source a) ++
        List.insertionSort pubDesc
          (((dedupScanRT articles []).filter fun a => !is_breaking_news a).filter
            fun a => !is_priority_source a))
      (dedupScanRT articles []) := by
  set unique := dedupScanRT articles [] with hu
  set B := unique.filter fun a => is_breaking_news a with hB
  set rest := unique.filter fun a => !is_breaking_news a with hrest
  set P := rest.filter fun a => is_priority_source a with hP
  set R := rest.filter fun a => !is_priority_source a with hR
  rw [List.append_assoc]
  refine ((List.perm_insertionSort pubDesc B).append
    ((List.perm_insertionSort pubDesc P).append
      (List.perm_insertionSort pubDesc R))).trans ?_
  refine (((List.filter_append_perm _ rest).append_left B).trans ?_)
  exact List.filter_append_perm _ unique

/-- Membership in the ranked real-time output implies membership in the
dedup scan's output. -/
theorem mem_of_mem_dedup_prioritize {articles : List Article} {a : Article}
    (h : a ∈ deduplicate_and_prioritize articles) : a ∈ dedupScanRT articles [] := by
  simp only [deduplicate_and_prioritize] at h
  exact (dedup_prioritize_perm articles).mem_iff.mp (List.mem_of_mem_take h)

/-- **C1**: the ranked real-time output and the aggregator's deduplicated
output contain no two articles with the same normalized (lower-cased,
stripped) title, and every article they keep is the first article of the
input bearing its normalized title — all later articles with that title,
whatever their source, are dropped. -/
theorem dedup_rank_no_duplicate_titles (articles : List Article) :
    ((deduplicate_and_prioritize articles).Pairwise fun a b => titleKey a ≠ titleKey b) ∧
    (∀ a ∈ deduplicate_and_prioritize articles,
      articles.find? (fun b => decide (titleKey b = titleKey a)) = some a) ∧
    ((deduplicate_articles articles []).Pairwise fun a b => titleKey a ≠ titleKey b) ∧
    (∀ a ∈ deduplicate_articles articles [],
      articles.find? (fun b => decide (titleKey b = titleKey a)) = some a) := by
  refine ⟨?_, ?_, ?_, ?_⟩
  · have hp : (dedupScanRT articles []).Pairwise fun a b => titleKey a ≠ titleKey b :=
      dedupScanRT_pairwise articles []
    have hperm := ((dedup_prioritize_perm articles).pairwise_iff
      (fun h => h.symm)).mpr hp
    simp only [deduplicate_and_prioritize]
    exact List.Pairwise.sublist (List.take_sublist _ _) hperm
  · intro a ha
    exact (dedupScanRT_spec articles [] a (mem_of_mem_dedup_prioritize ha)).2.2
  · exact deduplicate_articles_pairwise articles []
  · intro a ha
    exact (deduplicate_articles_spec articles [] a ha).2.2

/-- Witness for C1 at a concrete duplicate-bearing input. -/
theorem dedup_rank_no_duplicate_titles_witness :
    [fedArt, fedArt].find? (fun b => decide (titleKey b = titleKey fedArt)) = some fedArt :=
  (dedup_rank_no_duplicate_titles [fedArt, fedArt]).2.1 fedArt (by decide)

/-! ### Ordering of the ranked output -/

/-- The spec's tier-then-recency order: strictly smaller tier ordinal, or
equal tier and no-later publication. -/
def tierOrd (a b : Article) : Prop :=
  tier a < tier b ∨ (tier a = tier b ∧ b.published_at ≤ a.published_at)

/-- A stable sort does not disturb the elements selected by a predicate
whose selections are pairwise related (ties): filtering commutes with
`insertionSort`. -/
theorem filter_insertionSort_eq (p : Article → Bool) (b : List Article)
    (hp : ∀ x y, p x = true → p y = true → pubDesc x y) :
    (List.insertionSort pubDesc b).filter p = b.filter p := by
  have hc : List.Sublist (b.filter p) b := List.filter_sublist b
  have hcp : (b.filter p).Pairwise pubDesc :=
    List.pairwise_of_forall_mem_list fun x hx y hy =>
      hp x y (List.mem_filter.mp hx).2 (List.mem_filter.mp hy).2
  have h1 : List.Sublist (b.filter p) (List.insertionSort pubDesc b) :=
    List.sublist_insertionSort hcp hc
  have h2 : List.Perm ((List.insertionSort pubDesc b).filter p) (b.filter p) :=
    (List.perm_insertionSort pubDesc b).filter p
  have h3 : List.Sublist (b.filter p) ((List.insertionSort pubDesc b).filter p) := by
    have h4 := List.Sublist.filter p h1
    rwa [List.filter_eq_self.mpr fun a ha => (List.mem_filter.mp ha).2] at h4
  exact (h3.eq_of_length h2.length_eq.symm).symm

/-- Members of the breaking bucket have tier 0. -/
theorem tier_of_mem_breaking {a : Article} {unique : List Article}
    (h : a ∈ unique.filter fun x => is_breaking_news x) : tier a = 0 := by
  have hb := (List.mem_filter.mp h).2
  simp only at hb
  simp [tier, hb]

/-- Members of the priority bucket have tier 1. -/
theorem tier_of_mem_priority {a : Article} {unique : List Article}
    (h : a ∈ (unique.filter fun x => !is_breaking_news x).filter
      fun x => is_priority_source x) : tier a = 1 := by
  have hp := (List.mem_filter.mp h).2
  have hb := (List.mem_filter.mp (List.mem_filter.mp h).1).2
  simp only [Bool.not_eq_true'] at hb
  simp only at hp
  simp [tier, hb, hp]

/-- Members of the regular bucket have tier 2. -/
theorem tier_of_mem_regular {a : Article} {unique : List Article}
    (h : a ∈ (unique.filter fun x => !is_breaking_news x).filter
      fun x => !is_priority_source x) : tier a = 2 := by
  have hp := (List.mem_filter.mp h).2
  have hb := (List.mem_filter.mp (List.mem_filter.mp h).1).2
  simp only [Bool.not_eq_true'] at hb hp
  simp [tier, hb, hp]

/-- **C2**: the ranked real-time output is totally ordered by tier then
recency — pairwise, tiers are non-decreasing and, within a tier,
published-at is non-increasing; every class of ties (same tier, same
published-at) appears as a subsequence of the input, i.e. in stable input
order; and on the concrete scenario the breaking item is placed first even
though it was published earlier. -/
theorem ranked_output_tier_then_recency (articles : List Article) :
    ((deduplicate_and_prioritize articles).Pairwise tierOrd) ∧
    (∀ (t : Nat) (p : ℤ),
      List.Sublist
        ((deduplicate_and_prioritize articles).filter
          fun a => decide (tier a = t) && decide (a.published_at = p))
        articles) ∧
    deduplicate_and_prioritize [fedArt, brkArt] = [brkArt, fedArt] := by
  refine ⟨?_, ?_, by decide⟩
  · simp only [deduplicate_and_prioritize]
    apply List.Pairwise.sublist (List.take_sublist _ _)
    rw [List.append_assoc, List.pairwise_append]
    refine ⟨?_, ?_, ?_⟩
    · refine List.Pairwise.imp_of_mem ?_
        ((List.sorted_insertionSort pubDesc _ : List.Sorted pubDesc _))
      intro a b ha hb hr
      have ta := tier_of_mem_breaking ((List.mem_insertionSort pubDesc).mp ha)
      have tb := tier_of_mem_breaking ((List.mem_insertionSort pubDesc).mp hb)
      exact Or.inr ⟨ta.trans tb.symm, hr⟩
    · rw [List.pairwise_append]
      refine ⟨?_, ?_, ?_⟩
      · refine List.Pairwise.imp_of_mem ?_
          ((List.sorted_insertionSort pubDesc _ : List.Sorted pubDesc _))
        intro a b ha hb hr
        have ta := tier_of_mem_priority ((List.mem_insertionSort pubDesc).mp ha)
        have tb := tier_of_mem_priority ((List.mem_insertionSort pubDesc).mp hb)
        exact Or.inr ⟨ta.trans tb.symm, hr⟩
      · refine List.Pairwise.imp_of_mem ?_
          ((List.sorted_insertionSort pubDesc _ : List.Sorted pubDesc _))
        intro a b ha hb hr
        have ta := tier_of_mem_regular ((List.mem_insertionSort pubDesc).mp ha)
        have tb := tier_of_mem_regular ((List.mem_insertionSort pubDesc).mp hb)
        exact Or.inr ⟨ta.trans tb.symm, hr⟩
      · intro a ha b hb
        have ta := tier_of_mem_priority ((List.mem_insertionSort pubDesc).mp ha)
        have tb := tier_of_mem_regular ((List.mem_insertionSort pubDesc).mp hb)
        exact Or.inl (by omega)
    · intro a ha b hb
      have ta := tier_of_mem_breaking ((List.mem_insertionSort pubDesc).mp ha)
      rcases List.mem_append.mp hb with hb | hb
      · have tb := tier_of_mem_priority ((List.mem_insertionSort pubDesc).mp hb)
        exact Or.inl (by omega)
      · have tb := tier_of_mem_regular ((List.mem_insertionSort pubDesc).mp hb)
        exact Or.inl (by omega)
  · intro t p
    simp only [deduplicate_and_prioritize]
    have htie : ∀ x y : Article,
        (decide (tier x = t) && decide (x.published_at = p)) = true →
        (decide (tier y = t) && decide (y.published_at = p)) = true →
        pubDesc x y := by
      intro x y hx hy
      simp only [Bool.and_eq_true, decide_eq_true_eq] at hx hy
      exact le_of_eq (hy.2.trans hx.2.symm)
    set unique := dedupScanRT articles [] with hu
    set B := unique.filter fun a => is_breaking_news a with hB
    set rest := unique.filter fun a => !is_breaking_news a with hrest
    set P := rest.filter fun a => is_priority_source a with hP
    set R := rest.filter fun a => !is_priority_source a with hR
    refine List.Sublist.trans (List.Sublist.filter _ (List.take_sublist _ _)) ?_
    rw [List.filter_append, List.filter_append,
      filter_insertionSort_eq _ B htie, filter_insertionSort_eq _ P htie,
      filter_insertionSort_eq _ R htie]
    have hBt : ∀ a ∈ B, tier a = 0 := fun a ha => tier_of_mem_breaking (hB ▸ ha)
    have hPt : ∀ a ∈ P, tier a = 1 := fun a ha =>
      tier_of_mem_priority (hrest ▸ hP ▸ ha)
    have hRt : ∀ a ∈ R, tier a = 2 := fun a ha =>
      tier_of_mem_regular (hrest ▸ hR ▸ ha)
    have hsub0 : List.Sublist unique articles := hu ▸ dedupScanRT_sublist articles []
    have hsubB : List.Sublist B unique := hB ▸ List.filter_sublist unique
    have hsubrest : List.Sublist rest unique := hrest ▸ List.filter_sublist unique
    have hsubP : List.Sublist P rest := hP ▸ List.filter_sublist rest
    have hsubR : List.Sublist R rest := hR ▸ List.filter_sublist rest
    by_cases h0 : t = 0
    · subst h0
      have hPnil : P.filter (fun a => decide (tier a = 0) && decide (a.published_at = p)) = [] :=
        List.filter_eq_nil_iff.mpr fun a ha => by simp [hPt a ha]
      have hRnil : R.filter (fun a => decide (tier a = 0) && decide (a.published_at = p)) = [] :=
        List.filter_eq_nil_iff.mpr fun a ha => by simp [hRt a ha]
      rw [hPnil, hRnil, List.append_nil, List.append_nil]
      exact ((List.filter_sublist B).trans hsubB).trans hsub0
    by_cases h1 : t = 1
    · subst h1
      have hBnil : B.filter (fun a => decide (tier a = 1) && decide (a.published_at = p)) = [] :=
        List.filter_eq_nil_iff.mpr fun a ha => by simp [hBt a ha]
      have hRnil : R.filter (fun a => decide (tier a = 1) && decide (a.published_at = p)) = [] :=
        List.filter_eq_nil_iff.mpr fun a ha => by simp [hRt a ha]
      rw [hBnil, hRnil, List.nil_append, List.append_nil]
      exact ((List.filter_sublist P).trans hsubP).trans (hsubrest.trans hsub0)
    by_cases h2 : t = 2
    · subst h2
      have hBnil : B.filter (fun a => decide (tier a = 2) && decide (a.published_at = p)) = [] :=
        List.filter_eq_nil_iff.mpr fun a ha => by simp [hBt a ha]
      have hPnil : P.filter (fun a => decide (tier a = 2) && decide (a.published_at = p)) = [] :=
        List.filter_eq_nil_iff.mpr fun a ha => by simp [hPt a ha]
      rw [hBnil, hPnil, List.nil_append, List.nil_append]
      exact ((List.filter_sublist R).trans hsubR).trans (hsubrest.trans hsub0)
    · have hBnil : B.filter (fun a => decide (tier a = t) && decide (a.published_at = p)) = [] :=
        List.filter_eq_nil_iff.mpr fun a ha => by simp [hBt a ha, Ne.symm h0]
      have hPnil : P.filter (fun a => decide (tier a = t) && decide (a.published_at = p)) = [] :=
        List.filter_eq_nil_iff.mpr fun a ha => by simp [hPt a ha, Ne.symm h1]
      have hRnil : R.filter (fun a => decide (tier a = t) && decide (a.published_at = p)) = [] :=
        List.filter_eq_nil_iff.mpr fun a ha => by simp [hRt a ha, Ne.symm h2]
      rw [hBnil, hPnil, hRnil]
      simp

/-! ### Cache and orchestration claims -/

/-- Helper: collecting a concatenation of task results concatenates the
collections. -/
theorem collectResults_append (xs ys : List TaskResult) :
    collectResults (xs ++ ys) = collectResults xs ++ collectResults ys := by
  induction xs with
  | nil => simp [collectResults]
  | cons x rest ih =>
    cases x with
    | ok arts => simp [collectResults, ih]
    | error e => simp [collectResults, ih]

/-- Helper: collecting only successful tasks flattens their payloads. -/
theorem collectResults_ok_map (ls : List (List Article)) :
    collectResults (ls.map Except.ok) = ls.flatten := by
  induction ls with
  | nil => simp [collectResults]
  | cons l rest ih => simp [collectResults, ih]

/-- Counterexample to C5: two adapter tasks, one returning normally and
one still pending when the overall `as_completed` deadline elapses (a
timed-out task), on an empty cache — the orchestrator raises to its
caller instead of returning the union of the successful task's items. -/
theorem overall_deadline_timeout_propagates :
    fetch_news_concurrent_with_deadline (NewsCache.init 1) "k" 0
      [Except.ok [fedArt]] 1 = Except.error () := rfl

/-- **C5 (amended)**: with N tasks of which exactly one fails and the
other N-1 return normally, a failure that completes by *raising* within
the overall deadline is caught inside the loop: the collection yields
exactly the concatenation of the N-1 successful payloads, the per-source
`fetch_source` maps a raising source to `[]`, the realtime orchestrator
(whose `gather(..., return_exceptions=True)` loop is exhaustive) returns
the aggregation of that union, and `fetch_news_concurrent` returns it
with no exception.  But a failing task that is still *pending* when the
overall `as_completed` deadline elapses makes the iterator raise
`TimeoutError` outside the `try`/`except`: the exception propagates to
the orchestrator's caller and the accumulated successes are discarded. -/
theorem per_task_failure_caught_overall_timeout_raises
    (pre post : List (List Article)) (e : Unit) (key : Key) (now : ℤ)
    (numPending : Nat) :
    collectResults (pre.map Except.ok ++ Except.error e :: post.map Except.ok) =
      pre.flatten ++ post.flatten ∧
    fetch_source (Except.error e) = [] ∧
    ((fetch_real_time_news (RealTimeCache.init 30) key now
        (pre.map Except.ok ++ Except.error e :: post.map Except.ok)).1 =
      deduplicate_and_prioritize (pre.flatten ++ post.flatten)) ∧
    (fetch_news_concurrent_with_deadline (NewsCache.init 1) key now
        (pre.map Except.ok ++ Except.error e :: post.map Except.ok) 0 =
      Except.ok (fetch_news_concurrent (NewsCache.init 1) key now
        (pre.map Except.ok ++ Except.error e :: post.map Except.ok))) ∧
    (numPending ≠ 0 →
      fetch_news_concurrent_with_deadline (NewsCache.init 1) key now
        (pre.map Except.ok ++ Except.error e :: post.map Except.ok) numPending =
      Except.error ()) := by
  have hc : collectResults (pre.map Except.ok ++ Except.error e :: post.map Except.ok) =
      pre.flatten ++ post.flatten := by
    rw [collectResults_append, collectResults_ok_map, collectResults,
      collectResults_ok_map]
  have hcache : ((NewsCache.init 1).get key now).1 = [] := by
    simp [NewsCache.get, NewsCache.init]
  refine ⟨hc, rfl, ?_, ?_, ?_⟩
  · simp [fetch_real_time_news, RealTimeCache.get, RealTimeCache.init, hc]
  · simp [fetch_news_concurrent_with_deadline, fetch_news_concurrent, hcache]
  · intro hp
    simp [fetch_news_concurrent_with_deadline, hcache, hp]

/-- Witness for C5 (amended): the deadline-timeout conclusion exercised at
one pending future among concrete completed tasks. -/
theorem per_task_failure_caught_overall_timeout_raises_witness :
    fetch_news_concurrent_with_deadline (NewsCache.init 1) "k" 0
      ([[fedArt]].map Except.ok ++ Except.error () :: [[brkArt]].map Except.ok)
      1 = Except.error () :=
  (per_task_failure_caught_overall_timeout_raises [[fedArt]] [[brkArt]] ()
    "k" 0 1).2.2.2.2 (by decide)

/-- A `RealTimeCache` state whose single entry is past the 30 s TTL while
the 500 ms throttle window is still open (upstream call recorded at
`100000`, entry stored at `0`, clock at `100200`). -/
def staleRT : RealTimeCache :=
  { cache := fun k => if k = "k" then some ([fedArt], 0) else none
    last_fetch_times := fun k => if k = "k" then some 100000 else none
    cache_duration := 30000 }

/-- Counterexample to C3: with `should_fetch` false and a cache entry that
is older than the TTL, `fetch_real_time_news` does **not** serve the stored
entry — it performs a new upstream fetch round. -/
theorem stale_entry_past_ttl_triggers_fetch :
    (staleRT.should_fetch "k" 100200).1 = false ∧
    staleRT.cache "k" = some ([fedArt], 0) ∧
    (100200 : ℤ) - 0 ≥ staleRT.cache_duration ∧
    (fetch_real_time_news staleRT "k" 100200 []).2.1 = true :=
  ⟨by decide, by decide, by decide, by decide⟩

/-- **C3 (amended)**: on a throttled cycle the stored entry is served with
no upstream fetch only when it is within the TTL and non-empty; the
`NewsCache` aggregator serves such an entry as well (there regardless of
the throttle state). -/
theorem fetch_serves_cached_only_within_ttl
    (s : RealTimeCache) (s2 : NewsCache) (key : Key) (now : ℤ)
    (results : List TaskResult) (arts : List Article) (ts : ℤ)
    (h1 : (s.should_fetch key now).1 = false)
    (h2 : s.cache key = some (arts, ts))
    (h3 : now - ts < s.cache_duration)
    (h4 : arts ≠ [])
    (h5 : s2.cache key = some (arts, ts))
    (h6 : now - ts < s2.cache_duration) :
    fetch_real_time_news s key now results = (arts, false, s) ∧
    fetch_news_concurrent s2 key now results = (arts, false, s2) := by
  have hg : (s.get key now).1 = some arts := by
    simp [RealTimeCache.get, h2, h3]
  have hg2 : (s2.get key now).1 = arts := by
    simp [NewsCache.get, h5, h6]
  constructor
  · rw [fetch_real_time_news, if_pos ⟨h1, by simp [hg, h4]⟩]
    simp [hg]
  · by_cases hsf : (s2.should_fetch key now).1 = false
    · rw [fetch_news_concurrent]
      simp only [hg2]
      rw [if_pos ⟨h4, hsf⟩]
    · rw [fetch_news_concurrent]
      simp only [hg2]
      rw [if_neg fun hand => hsf hand.2, if_pos h4]

/-- A fresh `RealTimeCache` state: entry stored and upstream call recorded
at time `0`. -/
def freshRT : RealTimeCache :=
  { cache := fun k => if k = "k" then some ([fedArt], 0) else none
    last_fetch_times := fun k => if k = "k" then some 0 else none
    cache_duration := 30000 }

/-- A fresh `NewsCache` state: entry stored and API call recorded at `0`. -/
def freshNC : NewsCache :=
  { cache := fun k => if k = "k" then some ([fedArt], 0) else none
    last_api_call := fun k => if k = "k" then some 0 else none
    cache_duration := 60000 }

/-- Witness for C3 (amended) on the fresh states at clock `200`. -/
theorem fetch_serves_cached_only_within_ttl_witness :
    fetch_real_time_news freshRT "k" 200 [] = ([fedArt], false, freshRT) ∧
    fetch_news_concurrent freshNC "k" 200 [] = ([fedArt], false, freshNC) :=
  fetch_serves_cached_only_within_ttl freshRT freshNC "k" 200 [] [fedArt] 0
    (by decide) (by decide) (by decide) (by decide) (by decide) (by decide)

/-- Counterexample to C4: at exactly the 10 s `NewsCache` throttle
interval after a `set` — an instant at which at least the interval has
elapsed — `should_fetch` still returns false. -/
theorem newscache_false_at_exact_interval :
    (10000 : ℤ) - 0 ≥ NewsCache.min_call_interval ∧
    (((NewsCache.init 1).set "k" [] 0).should_fetch "k" 10000).1 = false :=
  ⟨by decide, by decide⟩

/-- **C4 (amended)**: after `set(key, …)` at time `t`, `should_fetch` is
false strictly inside the throttle window for both caches;
`RealTimeCache` turns true as soon as at least its interval has elapsed,
while `NewsCache` turns true only once strictly more than its interval has
elapsed (it is still false at exactly the interval). -/
theorem throttle_interval_boundary (s : RealTimeCache) (s2 : NewsCache)
    (key : Key) (articles : List Article) (t now : ℤ) :
    ((now - t < RealTimeCache.min_fetch_interval →
        ((s.set key articles t).should_fetch key now).1 = false) ∧
      (RealTimeCache.min_fetch_interval ≤ now - t →
        ((s.set key articles t).should_fetch key now).1 = true)) ∧
    ((now - t ≤ NewsCache.min_call_interval →
        ((s2.set key articles t).should_fetch key now).1 = false) ∧
      (NewsCache.min_call_interval < now - t →
        ((s2.set key articles t).should_fetch key now).1 = true)) := by
  refine ⟨⟨fun h => ?_, fun h => ?_⟩, fun h => ?_, fun h => ?_⟩ <;>
    simp [RealTimeCache.should_fetch, RealTimeCache.set,
      NewsCache.should_fetch, NewsCache.set, Function.update_same] <;>
    omega

/-- Witness for C4 (amended) around both boundaries. -/
theorem throttle_interval_boundary_witness :
    (((RealTimeCache.init 30).set "k" [] 0).should_fetch "k" 200).1 = false ∧
    (((RealTimeCache.init 30).set "k" [] 0).should_fetch "k" 500).1 = true ∧
    (((NewsCache.init 1).set "k" [] 0).should_fetch "k" 9999).1 = false ∧
    (((NewsCache.init 1).set "k" [] 0).should_fetch "k" 10001).1 = true :=
  ⟨(throttle_interval_boundary (RealTimeCache.init 30) (NewsCache.init 1)
      "k" [] 0 200).1.1 (by decide),
   (throttle_interval_boundary (RealTimeCache.init 30) (NewsCache.init 1)
      "k" [] 0 500).1.2 (by decide),
   (throttle_interval_boundary (RealTimeCache.init 30) (NewsCache.init 1)
      "k" [] 0 9999).2.1 (by decide),
   (throttle_interval_boundary (RealTimeCache.init 30) (NewsCache.init 1)
      "k" [] 0 10001).2.2 (by decide)⟩

/-- Counterexample to C6: with an empty previous cycle and an empty new
cycle — equal counts and equal title sets — the live loop still classifies
the result as changed. -/
theorem empty_previous_cycle_flags_change :
    ([] : List Article).length = ([] : List Article).length ∧
    content_changed [] [] = true :=
  ⟨rfl, by decide⟩

/-- **C6 (amended)**: the live loop classifies a cycle as "no new content"
(and skips the content update) exactly when the previous list is
*non-empty*, the counts agree, and the title sets agree; an empty previous
list always counts as changed. -/
theorem content_change_characterization (current new_articles : List Article) :
    content_changed current new_articles = false ↔
      (current ≠ [] ∧ new_articles.length = current.length ∧
        ∀ t1, t1 ∈ new_articles.map Article.title ↔
          t1 ∈ current.map Article.title) := by
  unfold content_changed
  by_cases h : current = [] ∨ new_articles.length ≠ current.length
  · rw [if_pos h]
    constructor
    · intro hcontra; cases hcontra
    · rintro ⟨hne, hlen, _⟩
      rcases h with h | h
      · exact absurd h hne
      · exact absurd hlen h
  · rw [if_neg h]
    push_neg at h
    rw [Bool.not_eq_false']
    simp only [Bool.and_eq_true, List.all_eq_true, decide_eq_true_eq]
    constructor
    · rintro ⟨ha, hb⟩
      exact ⟨h.1, h.2, fun t1 => ⟨fun ht => ha t1 ht, fun ht => hb t1 ht⟩⟩
    · rintro ⟨-, -, hiff⟩
      exact ⟨fun t1 ht => (hiff t1).mp ht, fun t1 ht => (hiff t1).mpr ht⟩

/-- Counterexample to C7: with a negative elapsed interval (clock skew),
both caches return `should_fetch = false`, not the claimed fail-open
`true`. -/
theorem negative_elapsed_not_should_fetch :
    ((50 : ℤ) - 100 < 0) ∧
    (((RealTimeCache.init 30).set "k" [] 100).should_fetch "k" 50).1 = false ∧
    (((NewsCache.init 1).set "k" [] 100).should_fetch "k" 50).1 = false :=
  ⟨by decide, by decide, by decide⟩

/-- **C7 (amended)**: when the elapsed time since the last recorded
upstream call is negative, both caches return `should_fetch = false` —
they fail closed, suppressing fetches until the clock catches up. -/
theorem negative_elapsed_fails_closed (s : RealTimeCache) (s2 : NewsCache)
    (key : Key) (articles : List Article) (t now : ℤ) (h : now - t < 0) :
    ((s.set key articles t).should_fetch key now).1 = false ∧
    ((s2.set key articles t).should_fetch key now).1 = false := by
  constructor <;>
    simp [RealTimeCache.should_fetch, RealTimeCache.set,
      NewsCache.should_fetch, NewsCache.set, Function.update_same,
      RealTimeCache.min_fetch_interval, NewsCache.min_call_interval] <;>
    omega

/-- Witness for C7 (amended) at a concrete skewed clock. -/
theorem negative_elapsed_fails_closed_witness :
    (((RealTimeCache.init 30).set "k" [] 100).should_fetch "k" 60).1 = false ∧
    (((NewsCache.init 1).set "k" [] 100).should_fetch "k" 60).1 = false :=
  negative_elapsed_fails_closed (RealTimeCache.init 30) (NewsCache.init 1)
    "k" [] 100 60 (by decide)

/-- **C8**: the read operations `get` and `should_fetch` of both caches
leave the whole cache state unchanged; the last-upstream-call map is
written only by `set` (at its own key) and `clear`; and a cache hit inside
either fetch routine returns with the state untouched. -/
theorem reads_leave_cache_state_unchanged (s : RealTimeCache) (s2 : NewsCache)
    (key k2 : Key) (articles : List Article) (t now : ℤ)
    (results : List TaskResult) :
    (s.get key now).2 = s ∧
    (s.should_fetch key now).2 = s ∧
    (s2.get key now).2 = s2 ∧
    (s2.should_fetch key now).2 = s2 ∧
    ((s.set key articles t).last_fetch_times key = some t) ∧
    (k2 ≠ key → (s.set key articles t).last_fetch_times k2 =
      s.last_fetch_times k2) ∧
    (s.clear.last_fetch_times key = none) ∧
    ((s2.set key articles t).last_api_call key = some t) ∧
    (k2 ≠ key → (s2.set key articles t).last_api_call k2 =
      s2.last_api_call k2) ∧
    (s2.clear.last_api_call key = none) ∧
    ((s.should_fetch key now).1 = false → (s.get key now).1.getD [] ≠ [] →
      (fetch_real_time_news s key now results).2.2 = s) ∧
    ((s2.get key now).1 ≠ [] →
      (fetch_news_concurrent s2 key now results).2.2 = s2) := by
  refine ⟨rfl, rfl, rfl, rfl,
    by simp [RealTimeCache.set, Function.update_same],
    fun hne => by simp [RealTimeCache.set, Function.update_noteq hne],
    rfl,
    by simp [NewsCache.set, Function.update_same],
    fun hne => by simp [NewsCache.set, Function.update_noteq hne],
    rfl,
    fun h1 h4 => ?_, fun hne => ?_⟩
  · rw [fetch_real_time_news, if_pos ⟨h1, h4⟩]
  · by_cases hsf : (s2.should_fetch key now).1 = false
    · rw [fetch_news_concurrent]
      simp only
      rw [if_pos ⟨hne, hsf⟩]
    · rw [fetch_news_concurrent]
      simp only
      rw [if_neg fun hand => hsf hand.2, if_pos hne]

/-- Witness for C8 on the fresh states. -/
theorem reads_leave_cache_state_unchanged_witness :
    (fetch_real_time_news freshRT "k" 200 []).2.2 = freshRT ∧
    (fetch_news_concurrent freshNC "k" 200 []).2.2 = freshNC ∧
    (freshRT.set "k" [] 7).last_fetch_times "x" = freshRT.last_fetch_times "x" :=
  ⟨(reads_leave_cache_state_unchanged freshRT freshNC "k" "x" [] 7 200
      []).2.2.2.2.2.2.2.2.2.2.1 (by decide) (by decide),
   (reads_leave_cache_state_unchanged freshRT freshNC "k" "x" [] 7 200
      []).2.2.2.2.2.2.2.2.2.2.2 (by decide),
   (reads_leave_cache_state_unchanged freshRT freshNC "k" "x" [] 7 200
      []).2.2.2.2.2.1 (by decide)⟩

/-- Counterexample to C9: the RSS adapter emits the `'[Removed]'`
placeholder (and the empty string) as article titles — they are not
rejected before entering the core, and `_parse_entry` keeps the
placeholder too. -/
theorem rss_passes_removed_sentinel :
    rss_fetch_titles [some removedSentinel, some []] = [removedSentinel, []] ∧
    parse_entry_title (some removedSentinel) = removedSentinel :=
  ⟨by decide, by decide⟩

/-- **C9 (amended)**: only the NewsAPI adapter rejects empty and
`'[Removed]'` titles before items enter the core; the RSS adapters pass
every present title string through unchanged (substituting `'No title'`
only for a missing field), so placeholder titles can enter the core via
RSS. -/
theorem adapter_title_filtering (raw entries : List RawTitle) :
    (∀ t1 ∈ newsapi_fetch_titles raw, t1 ≠ [] ∧ t1 ≠ removedSentinel) ∧
    (∀ t1, some t1 ∈ entries → t1 ∈ rss_fetch_titles entries) := by
  constructor
  · intro t1 ht
    unfold newsapi_fetch_titles at ht
    obtain ⟨o, ho, rfl⟩ := List.mem_map.mp ht
    have hok := (List.mem_filter.mp ho).2
    cases o with
    | none => simp [newsapi_title_ok] at hok
    | some str =>
      simp only [newsapi_title_ok, Bool.and_eq_true, Bool.not_eq_true',
        decide_eq_true_eq] at hok
      have hne : str ≠ [] := by
        intro he
        rw [he] at hok
        simp at hok
      show (if str.isEmpty then noTitleFallback else str) ≠ [] ∧
        (if str.isEmpty then noTitleFallback else str) ≠ removedSentinel
      rw [if_neg (by simp [hok.1])]
      exact ⟨hne, hok.2⟩
  · intro t1 ht
    exact List.mem_map.mpr ⟨some t1, ht, rfl⟩

/-- Witness for C9 (amended). -/
theorem adapter_title_filtering_witness :
    (noTitleFallback ≠ [] ∧ noTitleFallback ≠ removedSentinel) ∧
    removedSentinel ∈ rss_fetch_titles [some removedSentinel] :=
  ⟨(adapter_title_filtering [some noTitleFallback] [some removedSentinel]).1
      noTitleFallback (by decide),
   (adapter_title_filtering [some noTitleFallback] [some removedSentinel]).2
      removedSentinel (by decide)⟩

/-- **C10**: in the `NewsCache` aggregator a stored empty list reads back
exactly like a miss (`get` yields `[]` in both cases), so after
`set(key, [])` a `fetch_news_concurrent` cycle hits upstream again even
while the throttle window (so `should_fetch` is false) and the TTL are
both still in force. -/
theorem cached_empty_list_indistinguishable_from_miss
    (s s2 : NewsCache) (key : Key) (t now : ℤ) (results : List TaskResult)
    (hmiss : s2.cache key = none)
    (hthrottle : now - t ≤ NewsCache.min_call_interval)
    (_httl : now - t < s.cache_duration) :
    ((s.set key [] t).get key now).1 = [] ∧
    (s2.get key now).1 = [] ∧
    (((s.set key [] t).should_fetch key now).1 = false) ∧
    ((fetch_news_concurrent (s.set key [] t) key now results).2.1 = true) := by
  have hget : ((s.set key [] t).get key now).1 = [] := by
    simp [NewsCache.get, NewsCache.set, Function.update_same]
  refine ⟨hget, by simp [NewsCache.get, hmiss], ?_, ?_⟩
  · simp [NewsCache.should_fetch, NewsCache.set, Function.update_same]
    omega
  · rw [fetch_news_concurrent]
    simp only [hget]
    rw [if_neg fun hand => hand.1 rfl, if_neg fun hand => hand rfl]

/-- Witness for C10 at concrete times inside both windows. -/
theorem cached_empty_list_indistinguishable_from_miss_witness :
    (((NewsCache.init 1).set "k" [] 0).get "k" 5000).1 = [] ∧
    ((NewsCache.init 1).get "k" 5000).1 = [] ∧
    ((((NewsCache.init 1).set "k" [] 0).should_fetch "k" 5000).1 = false) ∧
    ((fetch_news_concurrent ((NewsCache.init 1).set "k" [] 0) "k" 5000 []).2.1
      = true) :=
  cached_empty_list_indistinguishable_from_miss (NewsCache.init 1)
    (NewsCache.init 1) "k" 0 5000 [] (by decide) (by decide) (by decide)

end NewsTerminal
